import Mathlib

/-
Verification of two PDF table-extraction command line scripts
(scripts/extract_table.py and scripts/extract_table_a2.py).

The development shallowly embeds, in Lean:
  * the multi-row header normalization routine `_apply_multirow_header`
    together with its helper `_normalize_header_values`,
  * the `--pages` specification parsing performed at the top of
    `extract_tables` in both scripts,
  * the temporary-directory lifecycle of `main`.

Python strings are modelled as Lean `String` restricted to their character
data; `str.strip`/`str.lower` are modelled over ASCII whitespace and ASCII
case, which is what the header tokens and page specifications use.
Dynamic pandas cell values are modelled by the sum type `Cell`
(missing `None`, missing `NaN`, or text), normalized to string form only at
the header-cleaning boundary, exactly as the source does via `str(v)`.
-/

/-- The empty string, the value Python's cleaning uses for missing cells. -/
def emptyS : String := ""

/-- The literal token "nan" (also the result of `str(float("nan"))`). -/
def strNan : String := "nan"

/-- The literal token "none" checked case-insensitively by the cleaning. -/
def strNoneTok : String := "none"

/-- The result of Python `str(None)`. -/
def strPyNone : String := "None"

/-- The sentinel spelling "all" accepted by the pages argument. -/
def strAll : String := "all"

/-- The prefix of the synthetic column labels `col_<i>`. -/
def strColLbl : String := "col_"

/-- The hyphen character separating the endpoints of a page range. -/
def dashChar : Char := '-'

/-- The comma character separating page-specification tokens. -/
def commaChar : Char := ','

/-- ASCII whitespace recognised by Python's `str.strip()`. -/
def isPySpace (c : Char) : Bool :=
  c == ' ' || c == '\t' || c == '\n' || c == '\r' || c == '\x0b' || c == '\x0c'

/-- Model of Python `str.strip()` on the character data of a string:
remove the longest whitespace prefix and the longest whitespace suffix. -/
def stripChars (l : List Char) : List Char :=
  ((l.dropWhile isPySpace).reverse.dropWhile isPySpace).reverse

/-- Model of Python `str.strip()`. -/
def pyStrip (s : String) : String :=
  String.mk (stripChars s.data)

/-- ASCII lower-casing of one character, as Python `str.lower()` does on ASCII. -/
def lowerChar (c : Char) : Char :=
  if 65 ≤ c.toNat ∧ c.toNat ≤ 90 then Char.ofNat (c.toNat + 32) else c

/-- Model of Python `str.lower()` (ASCII fragment). -/
def pyLower (s : String) : String :=
  String.mk (s.data.map lowerChar)

/-- A raw table cell as produced by `tabula.read_pdf` and seen by the header
normalizer: Python `None`, a float `NaN`, or text (numeric cells enter the
header cleaning only through their `str(v)` form, carried by `text`). -/
inductive Cell where
  | null : Cell
  | nan : Cell
  | text : String → Cell
  deriving DecidableEq, Repr

/-- Python `"" if v is None else str(v)` applied to a cell:
`str(None)` is never taken on the `None` branch, and `str(float("nan"))`
is the three letters `nan`. -/
def pyStr (v : Cell) : String :=
  match v with
  | Cell.null => emptyS
  | Cell.nan => strNan
  | Cell.text t => t

/-- The per-cell body of `_normalize_header_values` (extract_table.py lines
53-58): convert to string, strip, and map the tokens "nan"/"none"
(case-insensitively, checked after stripping) to the empty string. -/
def cleanCell (v : Cell) : String :=
  let s := pyStrip (pyStr v)
  if pyLower s = strNan ∨ pyLower s = strNoneTok then emptyS else s

/-- `_normalize_header_values` (extract_table.py lines 50-59): clean every
cell of one header row. -/
def _normalize_header_values (values : List Cell) : List String :=
  values.map cleanCell

/-- pandas missingness predicate `isna`: `None` and `NaN` are missing,
a string (even the empty string) is not. -/
def isna (v : Cell) : Bool :=
  match v with
  | Cell.null => true
  | Cell.nan => true
  | Cell.text _ => false

/-- pandas `ffill(axis=1)` on one row: each missing cell is replaced by the
nearest non-missing value to its left, if any. -/
def ffillRow (last : Option Cell) : List Cell → List Cell
  | [] => []
  | c :: cs =>
    if isna c then
      match last with
      | some l => l :: ffillRow (some l) cs
      | Option.none => c :: ffillRow Option.none cs
    else c :: ffillRow (some c) cs

/-- Python `str(v)` on a cell (used by `.tolist()` extraction of header
values; after cleaning, every value is a `text` cell). -/
def cellStr (v : Cell) : String :=
  match v with
  | Cell.null => strPyNone
  | Cell.nan => strNan
  | Cell.text t => t

/-- The column labelling of a DataFrame: the unprocessed default index,
a single flat level of string labels, or a MultiIndex of several levels. -/
inductive Columns where
  | default : Columns
  | flat : List String → Columns
  | multi : List (List String) → Columns
  deriving DecidableEq, Repr

/-- A pandas DataFrame as the normalizer sees it: its column labelling,
its column count `df.shape[1]`, and its rows of cells. -/
structure DF where
  cols : Columns
  ncols : Nat
  rows : List (List Cell)
  deriving DecidableEq, Repr

/-- Lines 79-80 of extract_table.py applied to one header row: clean the
cells (`apply(_normalize_header_values, axis=1, result_type="expand")`
producing string values) and then `ffill(axis=1)` over the resulting row. -/
def cleanFillRow (r : List Cell) : List Cell :=
  ffillRow Option.none ((_normalize_header_values r).map Cell.text)

/-- Line 87 of extract_table.py for one label row: right-pad with empty
strings when shorter than `ncols`, truncate when longer. -/
def fitArr (ncols : Nat) (arr : List String) : List String :=
  if arr.length < ncols then arr ++ List.replicate (ncols - arr.length) emptyS
  else arr.take ncols

/-- Lines 76-87 of extract_table.py: the label arrays built from the first
`h` rows — clean and forward-fill each header row, take the string values
(`tolist`), and reconcile each row to the column count. -/
def headerArrays (df : DF) (h : Nat) : List (List String) :=
  (((df.rows.take h).map cleanFillRow).map (fun row => row.map cellStr)).map
    (fun arr => fitArr df.ncols arr)

/-- Lines 93-97 of extract_table.py: the flattened labels, one per column
index of `List.range ncols` — keep the non-empty parts across levels, join
them with `sep`, and use `col_<idx>` when no part remains. -/
def flat_cols (ncols : Nat) (arrays : List (List String)) (sep : String) : List String :=
  (List.range ncols).map (fun colIdx =>
    let parts := arrays.map (fun arr => arr.getD colIdx emptyS)
    let parts2 := parts.filter (fun p => decide (p ≠ emptyS))
    if parts2 = [] then strColLbl ++ toString colIdx
    else String.intercalate sep parts2)

/-- Claim-side per-column label, following the specification's words: collect
the non-empty label fragment of column `i` from each level in top-to-bottom
order and join with `sep`; if all fragments are empty, the synthetic label. -/
def flatLabelSpec (levels : List (List String)) (sep : String) (i : Nat) : String :=
  let frags := levels.map (fun lv => lv.getD i emptyS)
  let nonEmptyFrags := frags.filter (fun p => decide (p ≠ emptyS))
  if nonEmptyFrags = [] then strColLbl ++ toString i
  else String.intercalate sep nonEmptyFrags

/-- Model of `pd.MultiIndex.from_arrays` (external library): construction
succeeds exactly when at least one level is given and all levels have the
same length; otherwise it raises, modelled as `Option.none`. -/
def multiIndexFromArrays (arrays : List (List String)) : Option (List (List String)) :=
  match arrays with
  | [] => Option.none
  | a :: rest =>
    if rest.all (fun b => decide (b.length = a.length)) then some (a :: rest)
    else Option.none

/-- Lines 100-110 of extract_table.py: try to build a MultiIndex from the
label arrays; on failure fall back to the flattened labels. -/
def noFlattenColumns (ncols : Nat) (arrays : List (List String)) (sep : String) : Columns :=
  match multiIndexFromArrays arrays with
  | some mi => Columns.multi mi
  | Option.none => Columns.flat (flat_cols ncols arrays sep)

/-- Lines 76-112 of extract_table.py once the pass-through guards have been
passed: build the label arrays, drop the header rows from the data, and
attach either the flattened labels or the MultiIndex labels. -/
def normalizeCore (df : DF) (h : Nat) (flatten : Bool) (sep : String) : DF :=
  let arrays := headerArrays df h
  let data := df.rows.drop h
  if flatten then
    { cols := Columns.flat (flat_cols df.ncols arrays sep), ncols := df.ncols, rows := data }
  else
    { cols := noFlattenColumns df.ncols arrays sep, ncols := df.ncols, rows := data }

/-- `_apply_multirow_header` (extract_table.py lines 62-112): pass the table
through unchanged when `header_rows <= 0` or when the table has fewer rows
than `header_rows`, otherwise normalize. -/
def applyMultirowHeader (df : DF) (headerRows : Int) (flatten : Bool) (sep : String) : DF :=
  if headerRows ≤ 0 then df
  else if (df.rows.length : Int) < headerRows then df
  else normalizeCore df headerRows.toNat flatten sep

/-- Result of parsing the `--pages` specification: either the sentinel
meaning every page (the Python string `"all"` passed on to `tabula`), or an
explicit list of page numbers. -/
inductive PagesResult where
  | all : PagesResult
  | pages : List Int → PagesResult
  deriving DecidableEq, Repr

/-- Split a character list at every occurrence of `c`, keeping empty pieces,
as Python `str.split` on a one-character separator does (so splitting the
empty string yields one empty piece). -/
def splitOnChar (c : Char) : List Char → List (List Char)
  | [] => [[]]
  | a :: t =>
    let r := splitOnChar c t
    if a == c then [] :: r
    else
      match r with
      | [] => [[a]]
      | h :: t2 => (a :: h) :: t2

/-- Accumulate the value of a non-empty run of decimal digits; any
non-digit character makes the conversion fail. -/
def digitsValAux (acc : Nat) : List Char → Option Nat
  | [] => some acc
  | c :: t => if c.isDigit then digitsValAux (acc * 10 + (c.toNat - 48)) t else Option.none

/-- Value of a non-empty all-digit character list. -/
def digitsVal (l : List Char) : Option Nat :=
  match l with
  | [] => Option.none
  | _ :: _ => digitsValAux 0 l

/-- Model of Python `int(str)`: strip whitespace, allow one leading sign,
then require a non-empty run of decimal digits (digit-group underscores are
not modelled); everything else raises `ValueError`, modelled as failure. -/
def pyIntChars (l0 : List Char) : Option Int :=
  let l := stripChars l0
  match l with
  | [] => Option.none
  | c :: t =>
    if c == '+' then (digitsVal t).map (fun n => (n : Int))
    else if c == '-' then (digitsVal t).map (fun n => -(n : Int))
    else (digitsVal (c :: t)).map (fun n => (n : Int))

/-- Python `range(a, b)` as a list. -/
def pyRange (a b : Int) : List Int :=
  (List.range (b - a).toNat).map (fun i => a + (i : Int))

/-- One token of the pages loop (extract_table.py lines 124-130 and
extract_table_a2.py lines 50-56): strip it; a token containing a hyphen must
split into exactly two integers `start` and `end` and expands to the
inclusive range `range(start, end + 1)`; otherwise the token itself must be
an integer. Any conversion or unpacking error is failure. -/
def parseTokenChars (t0 : List Char) : Option (List Int) :=
  let t := stripChars t0
  if t.contains dashChar then
    match splitOnChar dashChar t with
    | [a, b] =>
      match pyIntChars a, pyIntChars b with
      | some s, some e => some (pyRange s (e + 1))
      | _, _ => Option.none
    | _ => Option.none
  else
    (pyIntChars t).map (fun n => [n])

/-- String form of `parseTokenChars`. -/
def parseToken (t : String) : Option (List Int) :=
  parseTokenChars t.data

/-- The accumulating token loop of both scripts: `pages_list` starts from
the accumulator and each token's expansion is appended to it
(`pages_list.extend(...)` / `pages_list.append(...)`); a bad token raises,
failing the whole parse. -/
def pagesLoop (acc : List Int) : List (List Char) → Option (List Int)
  | [] => some acc
  | t :: ts =>
    match parseTokenChars t with
    | some l => pagesLoop (acc ++ l) ts
    | Option.none => Option.none

/-- Pages parsing of `extract_tables` in extract_table.py (lines 118-130):
a string lowering to "all" becomes the sentinel; otherwise the comma-split
tokens are expanded in order into the accumulated page list, any bad token
being fatal (for a string argument the `isinstance` test is true and
`str(pages)` is the argument itself). -/
def parsePagesET (pages : String) : Option PagesResult :=
  if pyLower pages = strAll then some PagesResult.all
  else (pagesLoop [] (splitOnChar commaChar pages.data)).map PagesResult.pages

/-- Pages parsing of `extract_tables` in extract_table_a2.py (lines 44-56),
identical token logic operating directly on the string argument. -/
def parsePagesA2 (pages : String) : Option PagesResult :=
  if pyLower pages = strAll then some PagesResult.all
  else (pagesLoop [] (splitOnChar commaChar pages.data)).map PagesResult.pages

/-- Claim-side expansion of a token list: each token expands independently
and the results are concatenated in textual order; one bad token fails the
whole specification. -/
def specExpand : List (List Char) → Option (List Int)
  | [] => some []
  | t :: ts =>
    match parseTokenChars t, specExpand ts with
    | some l, some r => some (l ++ r)
    | _, _ => Option.none

/-- Observable actions of one run of `main`, for the resource-lifecycle
model: creating the temporary download directory, removing it, and the
work done inside a phase (HTTP request, extraction, CSV write). -/
inductive RunAction where
  | createDir : RunAction
  | removeDir : RunAction
  | work : RunAction
  deriving DecidableEq, Repr

/-- Outcome of the extraction phase of extract_table.py: success, or an
exception inside extraction, or an exception inside header normalization —
both failures are caught by the phase's `except` and end in `sys.exit(1)`. -/
inductive ExtractOutcome where
  | success : ExtractOutcome
  | extractFailure : ExtractOutcome
  | normalizeFailure : ExtractOutcome
  deriving DecidableEq, Repr

/-- Sequencing of two phases: when the first phase exits the process
(`sys.exit`), the second never runs and the exit propagates as an unwinding
`SystemExit`; otherwise both run. A phase is a trace of actions together
with `some code` when it exits. -/
def seqPhase (a b : List RunAction × Option Int) : List RunAction × Option Int :=
  match a.2 with
  | some c => (a.1, some c)
  | Option.none => (a.1 ++ b.1, b.2)

/-- `download_pdf` (lines 34-47): attempt the download; any failure prints
a message and calls `sys.exit(1)`. -/
def downloadPdfModel (ok : Bool) : List RunAction × Option Int :=
  if ok then ([RunAction.work], Option.none) else ([RunAction.work], some 1)

/-- The `extract_tables` call of extract_table.py (lines 115-158): any
exception of page parsing, extraction, normalization or writing is caught
at the top level of the phase and becomes `sys.exit(1)`. -/
def extractTablesModel (o : ExtractOutcome) : List RunAction × Option Int :=
  match o with
  | ExtractOutcome.success => ([RunAction.work], Option.none)
  | ExtractOutcome.extractFailure => ([RunAction.work], some 1)
  | ExtractOutcome.normalizeFailure => ([RunAction.work], some 1)

/-- Model of `with tempfile.TemporaryDirectory() as temp_dir:` (external
library and runtime semantics): the directory is created on entry and the
context manager's cleanup removes it when the block is left, both on normal
completion and when the body unwinds with an exception — in particular the
`SystemExit` raised by `sys.exit` inside the body. -/
def withTemporaryDirectory (body : List RunAction × Option Int) : List RunAction × Option Int :=
  (RunAction.createDir :: (body.1 ++ [RunAction.removeDir]), body.2)

/-- `main` of extract_table.py (lines 161-209): the download and the
extraction both run inside the temporary-directory block. -/
def mainModel (dlOk : Bool) (ex : ExtractOutcome) : List RunAction × Option Int :=
  withTemporaryDirectory (seqPhase (downloadPdfModel dlOk) (extractTablesModel ex))

/-- Dropping from an already dropped list removes nothing further. -/
theorem dropWhile_self {α : Type} (p : α → Bool) (l : List α) :
    (l.dropWhile p).dropWhile p = l.dropWhile p := by
  induction l with
  | nil => rfl
  | cons a t ih =>
    by_cases h : p a
    · simp [List.dropWhile_cons, h, ih]
    · simp [List.dropWhile_cons, h]

/-- The head of the result of `dropWhile` does not satisfy the predicate. -/
theorem head?_dropWhile_false {α : Type} (p : α → Bool) (l : List α) {a : α}
    (h : (l.dropWhile p).head? = some a) : p a = false := by
  induction l with
  | nil => simp at h
  | cons b t ih =>
    by_cases hb : p b
    · rw [List.dropWhile_cons, if_pos hb] at h
      exact ih h
    · rw [List.dropWhile_cons, if_neg hb] at h
      simp only [List.head?_cons, Option.some.injEq] at h
      subst h
      exact Bool.eq_false_iff.mpr hb

/-- When `dropWhile` returns a non-empty list, the last element is the last
element of the input: `dropWhile` only removes a prefix. -/
theorem getLast?_dropWhile {α : Type} (p : α → Bool) (l : List α)
    (h : l.dropWhile p ≠ []) : (l.dropWhile p).getLast? = l.getLast? := by
  induction l with
  | nil => simp at h
  | cons b t ih =>
    by_cases hb : p b
    · rw [List.dropWhile_cons, if_pos hb] at h ⊢
      have ht : t ≠ [] := by
        intro he
        rw [he] at h
        simp at h
      cases t with
      | nil => exact absurd rfl ht
      | cons c u => rw [ih h, List.getLast?_cons_cons]
    · rw [List.dropWhile_cons, if_neg hb]

/-- A list whose head does not satisfy the predicate is unchanged by
`dropWhile`. -/
theorem dropWhile_of_head?_false {α : Type} (p : α → Bool) (l : List α)
    (h : ∀ a, l.head? = some a → p a = false) : l.dropWhile p = l := by
  cases l with
  | nil => rfl
  | cons a t =>
    have ha : p a = false := h a rfl
    rw [List.dropWhile_cons, if_neg]
    simp [ha]

/-- Stripping both ends of a character list is idempotent. -/
theorem stripChars_idem (l : List Char) : stripChars (stripChars l) = stripChars l := by
  unfold stripChars
  have hfront :
      ((((l.dropWhile isPySpace).reverse.dropWhile isPySpace).reverse).dropWhile isPySpace)
        = ((l.dropWhile isPySpace).reverse.dropWhile isPySpace).reverse := by
    apply dropWhile_of_head?_false
    intro a ha
    rw [List.head?_reverse] at ha
    have hBne : (l.dropWhile isPySpace).reverse.dropWhile isPySpace ≠ [] := by
      intro he
      rw [he] at ha
      simp at ha
    rw [getLast?_dropWhile isPySpace _ hBne, List.getLast?_reverse] at ha
    exact head?_dropWhile_false isPySpace l ha
  rw [hfront, List.reverse_reverse, dropWhile_self]

/-- Python stripping is idempotent: a stripped string has no surrounding
whitespace left. -/
theorem pyStrip_idem (s : String) : pyStrip (pyStrip s) = pyStrip s :=
  congrArg String.mk (stripChars_idem s.data)

/-- A single space, a whitespace-only header cell text. -/
def strOneSpace : String := " "

/-- The default separator of the scripts. -/
def strSepBar : String := " | "

/-- Claim C5 (corrected part): a whitespace-only text cell also cleans to the
empty string, although it is neither a missing value nor has stripped
lowercase form "nan" or "none" — refuting the claimed "exactly when". -/
theorem claim_C5_counterexample :
    cleanCell (Cell.text strOneSpace) = emptyS ∧
    Cell.text strOneSpace ≠ Cell.null ∧
    Cell.text strOneSpace ≠ Cell.nan ∧
    pyLower (pyStrip (pyStr (Cell.text strOneSpace))) ≠ strNan ∧
    pyLower (pyStrip (pyStr (Cell.text strOneSpace))) ≠ strNoneTok := by
  decide

/-- Claim C5 (amended): cleaning a header cell converts it to a string,
strips surrounding whitespace (the result is strip-invariant and is either
empty or the stripped string form of the cell), and the result is empty
exactly when the cell is null/missing, or its string form strips to the
empty string, or its stripped lowercase form is "nan" or "none". -/
theorem claim_C5 (v : Cell) :
    pyStrip (cleanCell v) = cleanCell v ∧
    (cleanCell v = emptyS ∨ cleanCell v = pyStrip (pyStr v)) ∧
    (cleanCell v = emptyS ↔
      (v = Cell.null ∨ v = Cell.nan ∨ pyStrip (pyStr v) = emptyS ∨
       pyLower (pyStrip (pyStr v)) = strNan ∨ pyLower (pyStrip (pyStr v)) = strNoneTok)) := by
  cases v with
  | null => exact ⟨by decide, Or.inl (by decide), by decide⟩
  | nan => exact ⟨by decide, Or.inl (by decide), by decide⟩
  | text t =>
    by_cases hc : pyLower (pyStrip t) = strNan ∨ pyLower (pyStrip t) = strNoneTok
    · have hcc : cleanCell (Cell.text t) = emptyS := by
        unfold cleanCell
        simp only [pyStr]
        rw [if_pos hc]
      refine ⟨by rw [hcc]; decide, Or.inl hcc, ?_⟩
      rw [hcc]
      simp only [pyStr]
      constructor
      · intro _
        rcases hc with h | h
        · exact Or.inr (Or.inr (Or.inr (Or.inl h)))
        · exact Or.inr (Or.inr (Or.inr (Or.inr h)))
      · intro _
        trivial
    · have hcc : cleanCell (Cell.text t) = pyStrip t := by
        unfold cleanCell
        simp only [pyStr]
        rw [if_neg hc]
      refine ⟨by rw [hcc]; exact pyStrip_idem t, Or.inr hcc, ?_⟩
      rw [hcc]
      simp only [pyStr]
      constructor
      · intro h
        exact Or.inr (Or.inr (Or.inl h))
      · intro h
        rcases h with h | h | h | h | h
        · exact Cell.noConfusion h
        · exact Cell.noConfusion h
        · exact h
        · exact absurd (Or.inl h) hc
        · exact absurd (Or.inr h) hc

/-- Claim C3: with a non-positive header row count, or fewer rows than
header rows, the normalizer returns its input unchanged. -/
theorem claim_C3 (df : DF) (hr : Int) (fl : Bool) (sep : String)
    (h : hr ≤ 0 ∨ (df.rows.length : Int) < hr) :
    applyMultirowHeader df hr fl sep = df := by
  unfold applyMultirowHeader
  rcases h with h | h
  · rw [if_pos h]
  · by_cases h0 : hr ≤ 0
    · rw [if_pos h0]
    · rw [if_neg h0, if_pos h]

/-- A concrete table with ragged header rows, used to instantiate the
hypothesis-bearing theorems: three columns, one short and one long header
row, one full data row. -/
def dfW : DF := ⟨Columns.default, 3, [
  [Cell.text (r"A")],
  [Cell.text (r"x"), Cell.text (r"y"), Cell.text (r"z"), Cell.text (r"w")],
  [Cell.text (r"1"), Cell.text (r"2"), Cell.text (r"3")]]⟩

/-- Witness for claim C3 at a concrete table and `header_rows = 0`. -/
theorem claim_C3_witness :
    ((0 : Int) ≤ 0 ∨ (dfW.rows.length : Int) < 0) ∧
    applyMultirowHeader dfW 0 true strSepBar = dfW :=
  ⟨Or.inl (by decide), claim_C3 dfW 0 true strSepBar (Or.inl (by decide))⟩

/-- The rows of the normalization core are always the input rows with the
header block dropped, for either labelling mode. -/
theorem normalizeCore_rows (df : DF) (h : Nat) (fl : Bool) (sep : String) :
    (normalizeCore df h fl sep).rows = df.rows.drop h := by
  cases fl <;> rfl

/-- Claim C8: when the table has at least `header_rows > 0` rows, the data
rows of the result are exactly the input rows from `header_rows` onward,
cells and order untouched. -/
theorem claim_C8 (df : DF) (hr : Int) (fl : Bool) (sep : String)
    (hpos : 0 < hr) (hle : hr.toNat ≤ df.rows.length) :
    (applyMultirowHeader df hr fl sep).rows = df.rows.drop hr.toNat := by
  have h0 : ¬ hr ≤ 0 := by omega
  have h1 : ¬ ((df.rows.length : Int) < hr) := by omega
  unfold applyMultirowHeader
  rw [if_neg h0, if_neg h1]
  exact normalizeCore_rows df hr.toNat fl sep

/-- Witness for claim C8 at a concrete table with two header rows. -/
theorem claim_C8_witness :
    (0 : Int) < 2 ∧ (2 : Int).toNat ≤ dfW.rows.length ∧
    (applyMultirowHeader dfW 2 true strSepBar).rows = dfW.rows.drop (2 : Int).toNat :=
  ⟨by decide, by decide, claim_C8 dfW 2 true strSepBar (by decide) (by decide)⟩

/-- Reconciliation always produces exactly `ncols` labels. -/
theorem fitArr_length (n : Nat) (arr : List String) : (fitArr n arr).length = n := by
  unfold fitArr
  by_cases h : arr.length < n
  · rw [if_pos h]
    simp only [List.length_append, List.length_replicate]
    omega
  · rw [if_neg h]
    simp only [List.length_take]
    omega

/-- Every level of the reconciled label arrays has the column count of the
table, whatever the lengths of the header rows were. -/
theorem headerArrays_level_length (df : DF) (h : Nat) :
    ∀ a ∈ headerArrays df h, a.length = df.ncols := by
  intro a ha
  unfold headerArrays at ha
  rcases List.mem_map.mp ha with ⟨b, _, rfl⟩
  exact fitArr_length df.ncols b

/-- When the table has at least `h` rows, there is one label array per
header row. -/
theorem headerArrays_length (df : DF) (h : Nat) (hle : h ≤ df.rows.length) :
    (headerArrays df h).length = h := by
  unfold headerArrays
  simp only [List.length_map, List.length_take]
  omega

/-- There are always `ncols` flattened labels. -/
theorem flat_cols_length (n : Nat) (arrays : List (List String)) (sep : String) :
    (flat_cols n arrays sep).length = n := by
  unfold flat_cols
  simp

/-- On the reconciled label arrays of a non-empty header block the
MultiIndex construction always succeeds: all levels share one length. -/
theorem multiIndexFromArrays_headerArrays (df : DF) (h : Nat)
    (hpos : 0 < h) (hle : h ≤ df.rows.length) :
    multiIndexFromArrays (headerArrays df h) = some (headerArrays df h) := by
  have hlen : (headerArrays df h).length = h := headerArrays_length df h hle
  have hall := headerArrays_level_length df h
  cases hA : headerArrays df h with
  | nil =>
    rw [hA] at hlen
    simp at hlen
    omega
  | cons a rest =>
    rw [hA] at hall
    have hcond : (rest.all fun b => decide (b.length = a.length)) = true := by
      rw [List.all_eq_true]
      intro b hb
      rw [decide_eq_true_eq]
      rw [hall b (List.mem_cons_of_mem a hb), hall a (List.mem_cons_self a rest)]
    simp [multiIndexFromArrays, hcond]

/-- Both pass-through guards of `_apply_multirow_header` are off when the
header row count is positive and the table is long enough. -/
theorem applyMultirowHeader_eq_core (df : DF) (hr : Int) (fl : Bool) (sep : String)
    (hpos : 0 < hr) (hle : hr.toNat ≤ df.rows.length) :
    applyMultirowHeader df hr fl sep = normalizeCore df hr.toNat fl sep := by
  have h0 : ¬ hr ≤ 0 := by omega
  have h1 : ¬ ((df.rows.length : Int) < hr) := by omega
  unfold applyMultirowHeader
  rw [if_neg h0, if_neg h1]

/-- Claim C4: for arbitrary header row lengths, every produced label
sequence — the flattened one, and each MultiIndex level when not
flattening — has length exactly the column count of the table, and (when
the data rows carry that column count) of the data rows of the result. -/
theorem claim_C4 (df : DF) (hr : Int) (sep : String)
    (hpos : 0 < hr) (hle : hr.toNat ≤ df.rows.length)
    (hrect : ∀ r ∈ df.rows.drop hr.toNat, r.length = df.ncols) :
    (∃ ls, (applyMultirowHeader df hr true sep).cols = Columns.flat ls ∧
       ls.length = df.ncols) ∧
    (∃ ms, (applyMultirowHeader df hr false sep).cols = Columns.multi ms ∧
       ms.length = hr.toNat ∧ ∀ a ∈ ms, a.length = df.ncols) ∧
    (∀ fl : Bool, ∀ r ∈ (applyMultirowHeader df hr fl sep).rows, r.length = df.ncols) := by
  have hpos' : 0 < hr.toNat := by omega
  refine ⟨⟨flat_cols df.ncols (headerArrays df hr.toNat) sep, ?_, ?_⟩, ?_, ?_⟩
  · rw [applyMultirowHeader_eq_core df hr true sep hpos hle]
    rfl
  · exact flat_cols_length df.ncols (headerArrays df hr.toNat) sep
  · refine ⟨headerArrays df hr.toNat, ?_, headerArrays_length df hr.toNat hle,
      headerArrays_level_length df hr.toNat⟩
    rw [applyMultirowHeader_eq_core df hr false sep hpos hle]
    show noFlattenColumns df.ncols (headerArrays df hr.toNat) sep = _
    unfold noFlattenColumns
    rw [multiIndexFromArrays_headerArrays df hr.toNat hpos' hle]
  · intro fl r hrmem
    rw [applyMultirowHeader_eq_core df hr fl sep hpos hle, normalizeCore_rows] at hrmem
    exact hrect r hrmem

/-- Witness for claim C4 at the concrete ragged-header table `dfW`. -/
theorem claim_C4_witness :
    ((0 : Int) < 2 ∧ (2 : Int).toNat ≤ dfW.rows.length ∧
      ∀ r ∈ dfW.rows.drop (2 : Int).toNat, r.length = dfW.ncols) ∧
    ((∃ ls, (applyMultirowHeader dfW 2 true strSepBar).cols = Columns.flat ls ∧
        ls.length = dfW.ncols) ∧
     (∃ ms, (applyMultirowHeader dfW 2 false strSepBar).cols = Columns.multi ms ∧
        ms.length = (2 : Int).toNat ∧ ∀ a ∈ ms, a.length = dfW.ncols) ∧
     (∀ fl : Bool, ∀ r ∈ (applyMultirowHeader dfW 2 fl strSepBar).rows,
        r.length = dfW.ncols)) :=
  ⟨⟨by decide, by decide, by decide⟩,
   claim_C4 dfW 2 strSepBar (by decide) (by decide) (by decide)⟩

/-- The flattened label at a valid column index is the claim-side
per-column label. -/
theorem flat_cols_getD (n : Nat) (arrays : List (List String)) (sep : String)
    (i : Nat) (hi : i < n) :
    (flat_cols n arrays sep).getD i emptyS = flatLabelSpec arrays sep i := by
  unfold flat_cols
  rw [List.getD_eq_getElem?_getD, List.getElem?_map, List.getElem?_range hi]
  rfl

/-- A table whose single header row consists only of missing or
whitespace-only cells, exhibiting the synthetic `col_<i>` fallback. -/
def dfEmptyHdr : DF := ⟨Columns.default, 3, [
  [Cell.nan, Cell.null, Cell.text strOneSpace],
  [Cell.text (r"1"), Cell.text (r"2"), Cell.text (r"3")]]⟩

/-- Claim C2: with `flatten` true, the label of each column is the join,
with the separator, of the column's non-empty fragments across the header
levels in top-to-bottom order, and `col_<i>` when every fragment of the
column is empty (in particular an all-empty header over three columns
yields the labels `col_0`, `col_1`, `col_2`). -/
theorem claim_C2 (df : DF) (hr : Int) (sep : String)
    (hpos : 0 < hr) (hle : hr.toNat ≤ df.rows.length) :
    (∃ ls, (applyMultirowHeader df hr true sep).cols = Columns.flat ls ∧
      ls.length = df.ncols ∧
      ∀ i, i < df.ncols →
        ls.getD i emptyS = flatLabelSpec (headerArrays df hr.toNat) sep i) ∧
    (applyMultirowHeader dfEmptyHdr 1 true strSepBar).cols =
      Columns.flat [r"col_0", r"col_1", r"col_2"] := by
  refine ⟨⟨flat_cols df.ncols (headerArrays df hr.toNat) sep, ?_, ?_, ?_⟩, by decide⟩
  · rw [applyMultirowHeader_eq_core df hr true sep hpos hle]
    rfl
  · exact flat_cols_length df.ncols (headerArrays df hr.toNat) sep
  · intro i hi
    exact flat_cols_getD df.ncols (headerArrays df hr.toNat) sep i hi

/-- Witness for claim C2 at the ragged table `dfW`: the existential is
instantiated and the per-column characterization is evaluated at index 0. -/
theorem claim_C2_witness :
    ((0 : Int) < 2 ∧ (2 : Int).toNat ≤ dfW.rows.length) ∧
    ((∃ ls, (applyMultirowHeader dfW 2 true strSepBar).cols = Columns.flat ls ∧
      ls.length = dfW.ncols ∧
      ∀ i, i < dfW.ncols →
        ls.getD i emptyS = flatLabelSpec (headerArrays dfW (2 : Int).toNat) strSepBar i) ∧
     (applyMultirowHeader dfEmptyHdr 1 true strSepBar).cols =
       Columns.flat [r"col_0", r"col_1", r"col_2"]) :=
  ⟨⟨by decide, by decide⟩, claim_C2 dfW 2 strSepBar (by decide) (by decide)⟩

/-- The specification's 2-row header example followed by one data row:
row 1 is `["A", "", "B"]`, row 2 is `["x", "y", "z"]`. -/
def dfC1 : DF := ⟨Columns.default, 3, [
  [Cell.text (r"A"), Cell.text emptyS, Cell.text (r"B")],
  [Cell.text (r"x"), Cell.text (r"y"), Cell.text (r"z")],
  [Cell.text (r"1"), Cell.text (r"2"), Cell.text (r"3")]]⟩

/-- Claim C1 evaluated on the code: on the specification's own example the
implemented normalizer produces the labels `["A - x", "y", "B - z"]` — not
the claimed `["A - x", "A - y", "B - z"]` — because cleaning replaces every
missing header value by the non-missing empty string before `ffill` runs,
so the horizontal forward-fill never propagates anything: filling after
cleaning is the identity both on an empty-text cell and on a cell that was
`NaN` before cleaning. -/
theorem claim_C1_code_eval :
    (applyMultirowHeader dfC1 2 true (r" - ")).cols =
      Columns.flat [r"A - x", r"y", r"B - z"] ∧
    Columns.flat ([r"A - x", r"y", r"B - z"] : List String) ≠
      Columns.flat [r"A - x", r"A - y", r"B - z"] ∧
    cleanFillRow [Cell.text (r"A"), Cell.text emptyS, Cell.text (r"B")] =
      [Cell.text (r"A"), Cell.text emptyS, Cell.text (r"B")] ∧
    cleanFillRow [Cell.text (r"A"), Cell.nan, Cell.text (r"B")] =
      [Cell.text (r"A"), Cell.text emptyS, Cell.text (r"B")] := by
  refine ⟨by decide, by decide, by decide, by decide⟩

/-- Claim C6: when the MultiIndex construction fails, the non-flatten
branch silently produces exactly the flatten-branch labels, and for every
table the two flatten settings agree on the resulting data rows. -/
theorem claim_C6 (n : Nat) (arrays : List (List String)) (sep : String)
    (df : DF) (hr : Int)
    (hfail : multiIndexFromArrays arrays = Option.none) :
    noFlattenColumns n arrays sep = Columns.flat (flat_cols n arrays sep) ∧
    (applyMultirowHeader df hr false sep).rows = (applyMultirowHeader df hr true sep).rows := by
  constructor
  · unfold noFlattenColumns
    rw [hfail]
  · by_cases h0 : hr ≤ 0
    · simp only [applyMultirowHeader, if_pos h0]
    · by_cases h1 : (df.rows.length : Int) < hr
      · simp only [applyMultirowHeader, if_neg h0, if_pos h1]
      · simp only [applyMultirowHeader, if_neg h0, if_neg h1, normalizeCore_rows]

/-- Ragged label arrays on which `pd.MultiIndex.from_arrays` raises. -/
def arrsRagged : List (List String) := [[r"a"], [r"b", r"c"]]

/-- Witness for claim C6 at concrete ragged arrays and a concrete table. -/
theorem claim_C6_witness :
    multiIndexFromArrays arrsRagged = Option.none ∧
    (noFlattenColumns 2 arrsRagged strSepBar =
       Columns.flat (flat_cols 2 arrsRagged strSepBar) ∧
     (applyMultirowHeader dfW 2 false strSepBar).rows =
       (applyMultirowHeader dfW 2 true strSepBar).rows) :=
  ⟨by decide, claim_C6 2 arrsRagged strSepBar dfW 2 (by decide)⟩

/-- The accumulating token loop equals the claim-side sequential expansion
appended to the accumulator: token results are concatenated in textual
order, one failure failing all. -/
theorem pagesLoop_eq_specExpand (ts : List (List Char)) :
    ∀ acc, pagesLoop acc ts = (specExpand ts).map (fun r => acc ++ r) := by
  induction ts with
  | nil =>
    intro acc
    simp [pagesLoop, specExpand]
  | cons t ts ih =>
    intro acc
    cases hpt : parseTokenChars t with
    | none => simp [pagesLoop, specExpand, hpt]
    | some l =>
      cases hse : specExpand ts with
      | none => simp [pagesLoop, specExpand, hpt, hse, ih]
      | some r => simp [pagesLoop, specExpand, hpt, hse, ih]

/-- The example specification from the testable properties. -/
def strSpec137 : String := "1,3,5-7"

/-- The upper-case spelling of the sentinel. -/
def strAllCaps : String := "ALL"

/-- Claim C7: a string lowering to "all" parses to the every-page sentinel;
any other string parses to the in-order concatenation of its comma-split
tokens, each a stripped single page number or an inclusive hyphenated
range; in particular `"1,3,5-7"` expands to `[1, 3, 5, 6, 7]` and the
range token `"5-7"` alone expands inclusively to `[5, 6, 7]`. -/
theorem claim_C7 (s : String) :
    (pyLower s = strAll → parsePagesET s = some PagesResult.all) ∧
    (pyLower s ≠ strAll →
      parsePagesET s =
        (specExpand (splitOnChar commaChar s.data)).map PagesResult.pages) ∧
    parsePagesET strSpec137 = some (PagesResult.pages [1, 3, 5, 6, 7]) ∧
    parseToken (r"5-7") = some [5, 6, 7] := by
  refine ⟨?_, ?_, by decide, by decide⟩
  · intro h
    unfold parsePagesET
    rw [if_pos h]
  · intro h
    unfold parsePagesET
    rw [if_neg h, pagesLoop_eq_specExpand]
    cases hse : specExpand (splitOnChar commaChar s.data) with
    | none => simp [hse]
    | some r => simp [hse]

/-- Witness for claim C7: both implications discharged at concrete
specifications, one lowering to "all" and one that expands to pages. -/
theorem claim_C7_witness :
    (pyLower strAllCaps = strAll ∧ parsePagesET strAllCaps = some PagesResult.all) ∧
    (pyLower strSpec137 ≠ strAll ∧
      parsePagesET strSpec137 =
        (specExpand (splitOnChar commaChar strSpec137.data)).map PagesResult.pages) :=
  ⟨⟨by decide, (claim_C7 strAllCaps).1 (by decide)⟩,
   ⟨by decide, (claim_C7 strSpec137).2.1 (by decide)⟩⟩

/-- Claim C9: the two entry points parse every page-specification string
identically — same sentinel, same expansion, and failure on the same
invalid specifications. -/
theorem claim_C9 (s : String) : parsePagesET s = parsePagesA2 s := rfl

/-- Claim C10: on every combination of phase outcomes — success, download
failure, extraction failure, normalization failure — the run creates the
temporary directory and its removal is the final action before the process
terminates (normally or through `sys.exit`). -/
theorem claim_C10 (dlOk : Bool) (ex : ExtractOutcome) :
    (mainModel dlOk ex).1.head? = some RunAction.createDir ∧
    (mainModel dlOk ex).1.getLast? = some RunAction.removeDir ∧
    ((mainModel dlOk ex).2 = Option.none ∨ (mainModel dlOk ex).2 = some 1) := by
  cases dlOk <;> cases ex <;> exact ⟨by decide, by decide, by decide⟩
